import Mathlib

/-!
Shallow embedding of indirect.h: the value-semantic owning wrapper
(class indirect) over a type-erased control block
(detail::direct_control_block), together with its cast operations,
modelled over an explicit heap of control blocks.  Concrete payload
types mirror the repository's own test types (test_indirect.cpp):
derived and derived_other, plus throwy, a payload with a failing copy
constructor, exercising the exception path the template parameter of
direct_control_block admits.
-/

namespace CppIndirect

/-- C++ class types appearing in the embedding: the abstract interface
base and the concrete payload types derived and derived_other
(test_indirect.cpp lines 4-40), plus throwy, a payload whose copy
constructor throws on negative stored values; direct_control_block is a
template, so its payload may have any copy behaviour. -/
inductive CppType where
  | base
  | derived
  | derivedOther
  | throwy
deriving DecidableEq

/-- std::is_base_of over the embedded hierarchy: base is a base of every
class here, and every class is a base of itself. -/
def isBaseOf : CppType → CppType → Bool
  | CppType.base, _ => true
  | t, u => t == u

/-- Instantiable classes: base has pure virtual member functions and can
never be stored inside a direct_control_block. -/
def CppType.isConcrete : CppType → Bool
  | CppType.base => false
  | _ => true

/-- Copy constructor of each payload type: derived and derived_other copy
the stored int (test_indirect.cpp lines 22 and 32-40); throwy throws
(modelled as none) when the stored value is negative. -/
def CppType.copyCtor : CppType → Int → Option Int
  | CppType.throwy, v => if v < 0 then none else some v
  | _, v => some v

/-- Move constructor of each payload type, returning the pair (value of
the newly built object, value left behind in the moved-from source):
derived zeroes its source (test_indirect.cpp line 23); the others copy
the int and leave the source unchanged. -/
def CppType.moveCtor : CppType → Int → Int × Int
  | CppType.derived, v => (v, 0)
  | _, v => (v, v)

/-- Default-constructed value of each payload type (test_indirect.cpp
lines 21 and 35): the int field is zero. -/
def CppType.defaultVal : CppType → Int := fun _ => 0

/-- Virtual get_value, dispatched on the dynamic type of the pointee
(test_indirect.cpp lines 26 and 38): returns the stored field. -/
def CppType.get_value : CppType → Int → Int := fun _ v => v

/-- Virtual set_value, dispatched on the dynamic type of the pointee
(test_indirect.cpp lines 27 and 39): replaces the stored field. -/
def CppType.set_value : CppType → Int → Int → Int := fun _ _ n => n

/-- detail::direct_control_block (indirect.h lines 26-53): the
type-erased holder of exactly one concrete value; ty is the concrete
template argument, t the stored value. -/
structure direct_control_block where
  ty : CppType
  t : Int
deriving DecidableEq

/-- Lookup of a block by its address in an allocation list. -/
def blkFind : List (Nat × direct_control_block) → Nat → Option direct_control_block
  | [], _ => none
  | p :: ps, i => if p.1 = i then some p.2 else blkFind ps i

/-- In-place mutation of the block stored at an address. -/
def blkUpdate : List (Nat × direct_control_block) → Nat → direct_control_block →
    List (Nat × direct_control_block)
  | [], _, _ => []
  | p :: ps, i, b => if p.1 = i then (i, b) :: blkUpdate ps i b else p :: blkUpdate ps i b

/-- Removal of the block stored at an address (deallocation). -/
def blkFree : List (Nat × direct_control_block) → Nat → List (Nat × direct_control_block)
  | [], _ => []
  | p :: ps, i => if p.1 = i then blkFree ps i else p :: blkFree ps i

/-- Heap of live control blocks: make_unique allocates at the fresh
address next, destruction of a unique_ptr removes its block. -/
structure Heap where
  next : Nat
  blocks : List (Nat × direct_control_block)
deriving DecidableEq

def Heap.lookup (h : Heap) (i : Nat) : Option direct_control_block :=
  blkFind h.blocks i

def Heap.alloc (h : Heap) (b : direct_control_block) : Heap × Nat :=
  (⟨h.next + 1, (h.next, b) :: h.blocks⟩, h.next)

def Heap.update (h : Heap) (i : Nat) (b : direct_control_block) : Heap :=
  ⟨h.next, blkUpdate h.blocks i b⟩

def Heap.free (h : Heap) (i : Nat) : Heap :=
  ⟨h.next, blkFree h.blocks i⟩

/-- Well-formed heap: every live address lies below the allocation
frontier, so a fresh allocation never collides with a live block. -/
def Heap.wf (h : Heap) : Prop :=
  ∀ p ∈ h.blocks, p.1 < h.next

instance (h : Heap) : Decidable h.wf :=
  inferInstanceAs (Decidable (∀ p ∈ h.blocks, p.1 < h.next))

/-- Exceptions the header propagates: bad_indirect_cast (indirect.h
lines 10-12, thrown at line 215) and a payload copy-constructor failure
propagated out of direct_control_block::copy (lines 39-42). -/
inductive CppException where
  | bad_indirect_cast
  | copy_failure
deriving DecidableEq

/-- The wrapper indirect (indirect.h lines 60-218): its data member
(lines 67-84) holds the typed view pointer ptr and the owning handle cb.
viewTy records the declared view type T.  Both pointers are nullable in
C++, hence Option. -/
structure indirect where
  viewTy : CppType
  ptr : Option Nat
  cb : Option Nat
deriving DecidableEq

/-- Has-value query.  Modelled from the spec: the header itself defines
no boolean query; the spec (section 4.2) defines it as true iff the view
pointer is non-null. -/
def has_value (w : indirect) : Bool := w.ptr.isSome

/-- operator-> and operator* (indirect.h lines 169-187) read through
m.ptr; the virtual get_value then dispatches on the pointee's dynamic
type.  A null view pointer or a dangling block yields no value. -/
def get_value (h : Heap) (w : indirect) : Option Int :=
  match w.ptr with
  | none => none
  | some i =>
    match h.lookup i with
    | none => none
    | some b => some (b.ty.get_value b.t)

/-- Mutation through operator-> (indirect.h lines 174-177) followed by
the virtual set_value: writes the pointee's stored field in place. -/
def set_value (h : Heap) (w : indirect) (n : Int) : Option Heap :=
  match w.ptr with
  | none => none
  | some i =>
    match h.lookup i with
    | none => none
    | some b => some (h.update i ⟨b.ty, b.ty.set_value b.t n⟩)

/-- indirect default constructor (indirect.h lines 89-93): allocates a
direct_control_block holding a default-constructed T; the data member
(lines 72-76) then sets both ptr and cb from the new block.  Offered
only for default-constructible (here: concrete) view types. -/
def default_construct (h : Heap) (T : CppType) : Option (Heap × indirect) :=
  if T.isConcrete then
    some ((h.alloc ⟨T, T.defaultVal⟩).1, ⟨T, some (h.alloc ⟨T, T.defaultVal⟩).2,
      some (h.alloc ⟨T, T.defaultVal⟩).2⟩)
  else none

/-- indirect in-place constructor (indirect.h lines 95-99) and
make_indirect (lines 220-224): allocates a block of the view type T
holding the given constructor argument. -/
def in_place_construct (h : Heap) (T : CppType) (v : Int) : Option (Heap × indirect) :=
  if T.isConcrete then
    some ((h.alloc ⟨T, v⟩).1, ⟨T, some (h.alloc ⟨T, v⟩).2, some (h.alloc ⟨T, v⟩).2⟩)
  else none

/-- indirect conversion constructor from a value (indirect.h lines
149-153), rvalue flavour: wraps a move of the given U value in a fresh
direct_control_block of U; enabled when T is a base of U. -/
def value_construct_move (h : Heap) (T U : CppType) (v : Int) : Option (Heap × indirect) :=
  if U.isConcrete && isBaseOf T U then
    some ((h.alloc ⟨U, (U.moveCtor v).1⟩).1, ⟨T, some (h.alloc ⟨U, (U.moveCtor v).1⟩).2,
      some (h.alloc ⟨U, (U.moveCtor v).1⟩).2⟩)
  else none

/-- indirect conversion constructor from a value (indirect.h lines
149-153), lvalue flavour: the forwarding reference copy-constructs the
payload, which may throw. -/
def value_construct_copy (h : Heap) (T U : CppType) (v : Int) :
    Option (Heap × Option indirect × Option CppException) :=
  if U.isConcrete && isBaseOf T U then
    match U.copyCtor v with
    | none => some (h, none, some CppException.copy_failure)
    | some v2 =>
      some ((h.alloc ⟨U, v2⟩).1, some ⟨T, some (h.alloc ⟨U, v2⟩).2,
        some (h.alloc ⟨U, v2⟩).2⟩, none)
  else none

/-- Assignment from a value (indirect.h lines 155-160), rvalue flavour:
builds the fresh block first, then data::operator= (lines 78-83) rebinds
ptr and cb, releasing the old block. -/
def value_assign (h : Heap) (w : indirect) (U : CppType) (v : Int) : Option (Heap × indirect) :=
  if U.isConcrete && isBaseOf w.viewTy U then
    match w.cb with
    | some j =>
      some (((h.alloc ⟨U, (U.moveCtor v).1⟩).1).free j,
        ⟨w.viewTy, some (h.alloc ⟨U, (U.moveCtor v).1⟩).2,
          some (h.alloc ⟨U, (U.moveCtor v).1⟩).2⟩)
    | none =>
      some ((h.alloc ⟨U, (U.moveCtor v).1⟩).1,
        ⟨w.viewTy, some (h.alloc ⟨U, (U.moveCtor v).1⟩).2,
          some (h.alloc ⟨U, (U.moveCtor v).1⟩).2⟩)
  else none

/-- Core of every copying construction path (indirect.h lines 101-104,
123-127, 230): other.m.cb->copy() (direct_control_block::copy, lines
39-42) builds a new block of the same concrete variant by running the
payload's own copy constructor; the new wrapper's data member is then
initialised from that block (lines 72-76).  If the payload copy throws,
the exception propagates, no wrapper is created and make_unique releases
its allocation, leaving the heap unchanged.  T is the view type of the
wrapper being constructed. -/
def construct_from_copy (h : Heap) (T : CppType) (w : indirect) :
    Option (Heap × Option indirect × Option CppException) :=
  match w.cb with
  | none => none
  | some i =>
    match h.lookup i with
    | none => none
    | some b =>
      match b.ty.copyCtor b.t with
      | none => some (h, none, some CppException.copy_failure)
      | some v =>
        some ((h.alloc ⟨b.ty, v⟩).1, some ⟨T, some (h.alloc ⟨b.ty, v⟩).2,
          some (h.alloc ⟨b.ty, v⟩).2⟩, none)

/-- Core of every moving construction path (indirect.h lines 106-109,
129-133, 237): other.m.cb->move() (direct_control_block::move, lines
44-47) builds a new block of the same concrete variant holding a value
moved out of the source block, whose stored value is left in its
moved-from state; the source wrapper's own members are not touched. -/
def construct_from_move (h : Heap) (T : CppType) (w : indirect) : Option (Heap × indirect) :=
  match w.cb with
  | none => none
  | some i =>
    match h.lookup i with
    | none => none
    | some b =>
      some (((h.update i ⟨b.ty, (b.ty.moveCtor b.t).2⟩).alloc ⟨b.ty, (b.ty.moveCtor b.t).1⟩).1,
        ⟨T, some ((h.update i ⟨b.ty, (b.ty.moveCtor b.t).2⟩).alloc
            ⟨b.ty, (b.ty.moveCtor b.t).1⟩).2,
          some ((h.update i ⟨b.ty, (b.ty.moveCtor b.t).2⟩).alloc
            ⟨b.ty, (b.ty.moveCtor b.t).1⟩).2⟩)

/-- indirect copy constructor (indirect.h lines 101-104). -/
def copy_construct (h : Heap) (w : indirect) :
    Option (Heap × Option indirect × Option CppException) :=
  construct_from_copy h w.viewTy w

/-- indirect move constructor (indirect.h lines 106-109). -/
def move_construct (h : Heap) (w : indirect) : Option (Heap × indirect) :=
  construct_from_move h w.viewTy w

/-- Upcast conversion copy constructor (indirect.h lines 123-127):
enabled when T is a base of the source's view type; copies the source's
block as-is. -/
def upcast_copy_construct (h : Heap) (T : CppType) (w : indirect) :
    Option (Heap × Option indirect × Option CppException) :=
  if isBaseOf T w.viewTy then construct_from_copy h T w else none

/-- Upcast conversion move constructor (indirect.h lines 129-133). -/
def upcast_move_construct (h : Heap) (T : CppType) (w : indirect) : Option (Heap × indirect) :=
  if isBaseOf T w.viewTy then construct_from_move h T w else none

/-- indirect copy assignment (indirect.h lines 111-115): first clones the
source's block via other.m.cb->copy(); only on success does
data::operator= (lines 78-83) rebind ptr and cb, destroying the old
block.  A throwing payload copy leaves the target and the heap exactly
as they were.  Calling it with w and other aliased models self
assignment: the clone is taken from the still-live block before the old
block is released. -/
def copy_assign (h : Heap) (w other : indirect) :
    Option (Heap × indirect × Option CppException) :=
  match other.cb with
  | none => none
  | some i =>
    match h.lookup i with
    | none => none
    | some b =>
      match b.ty.copyCtor b.t with
      | none => some (h, w, some CppException.copy_failure)
      | some v =>
        match w.cb with
        | some j =>
          some (((h.alloc ⟨b.ty, v⟩).1).free j,
            ⟨w.viewTy, some (h.alloc ⟨b.ty, v⟩).2, some (h.alloc ⟨b.ty, v⟩).2⟩, none)
        | none =>
          some ((h.alloc ⟨b.ty, v⟩).1,
            ⟨w.viewTy, some (h.alloc ⟨b.ty, v⟩).2, some (h.alloc ⟨b.ty, v⟩).2⟩, none)

/-- indirect move assignment (indirect.h lines 117-121): builds a fresh
block holding a value moved out of the source's block (whose stored
value is left moved-from), then data::operator= rebinds ptr and cb and
destroys the target's old block.  Calling it with w and other aliased
models self move assignment. -/
def move_assign (h : Heap) (w other : indirect) : Option (Heap × indirect) :=
  match other.cb with
  | none => none
  | some i =>
    match h.lookup i with
    | none => none
    | some b =>
      match w.cb with
      | some j =>
        some ((((h.update i ⟨b.ty, (b.ty.moveCtor b.t).2⟩).alloc
            ⟨b.ty, (b.ty.moveCtor b.t).1⟩).1).free j,
          ⟨w.viewTy, some ((h.update i ⟨b.ty, (b.ty.moveCtor b.t).2⟩).alloc
              ⟨b.ty, (b.ty.moveCtor b.t).1⟩).2,
            some ((h.update i ⟨b.ty, (b.ty.moveCtor b.t).2⟩).alloc
              ⟨b.ty, (b.ty.moveCtor b.t).1⟩).2⟩)
      | none =>
        some (((h.update i ⟨b.ty, (b.ty.moveCtor b.t).2⟩).alloc
            ⟨b.ty, (b.ty.moveCtor b.t).1⟩).1,
          ⟨w.viewTy, some ((h.update i ⟨b.ty, (b.ty.moveCtor b.t).2⟩).alloc
              ⟨b.ty, (b.ty.moveCtor b.t).1⟩).2,
            some ((h.update i ⟨b.ty, (b.ty.moveCtor b.t).2⟩).alloc
              ⟨b.ty, (b.ty.moveCtor b.t).1⟩).2⟩)

/-- Upcast conversion copy assignment (indirect.h lines 135-140). -/
def upcast_copy_assign (h : Heap) (w other : indirect) :
    Option (Heap × indirect × Option CppException) :=
  if isBaseOf w.viewTy other.viewTy then copy_assign h w other else none

/-- Upcast conversion move assignment (indirect.h lines 142-147). -/
def upcast_move_assign (h : Heap) (w other : indirect) : Option (Heap × indirect) :=
  if isBaseOf w.viewTy other.viewTy then move_assign h w other else none

/-- indirect::swap (indirect.h lines 162-167) and the free swap (lines
254-258): exchanges the two data members field by field; touches no
block and performs no allocation; requires both wrappers to have the
same view type (the member signature). -/
def swap (h : Heap) (w1 w2 : indirect) : Option (Heap × indirect × indirect) :=
  if w1.viewTy = w2.viewTy then
    some (h, ⟨w1.viewTy, w2.ptr, w2.cb⟩, ⟨w2.viewTy, w1.ptr, w1.cb⟩)
  else none

/-- try_static_cast (indirect.h lines 204-208): static_cast between the
two pointer types compiles exactly when the types are related by
inheritance in either direction. -/
def staticCastOk (T U : CppType) : Bool := isBaseOf T U || isBaseOf U T

/-- static_indirect_cast, copy form (indirect.h lines 226-231): after the
compile-time compatibility check, copies the source's block into a
wrapper with view type T. -/
def static_indirect_cast_copy (h : Heap) (T : CppType) (w : indirect) :
    Option (Heap × Option indirect × Option CppException) :=
  if staticCastOk T w.viewTy then construct_from_copy h T w else none

/-- static_indirect_cast, move form (indirect.h lines 233-238). -/
def static_indirect_cast_move (h : Heap) (T : CppType) (w : indirect) :
    Option (Heap × indirect) :=
  if staticCastOk T w.viewTy then construct_from_move h T w else none

/-- dynamic_indirect_cast, copy form (indirect.h lines 240-245):
try_dynamic_cast (lines 210-217) runs dynamic_cast on m.ptr, which
succeeds exactly when the pointee's dynamic type has T as a base, and
throws bad_indirect_cast otherwise, before the block is touched in any
way.  The result quadruple is (heap after, the source as the call leaves
it, the constructed wrapper if any, the propagated exception if any). -/
def dynamic_indirect_cast_copy (h : Heap) (T : CppType) (w : indirect) :
    Option (Heap × indirect × Option indirect × Option CppException) :=
  if staticCastOk T w.viewTy then
    match w.ptr with
    | none => some (h, w, none, some CppException.bad_indirect_cast)
    | some i =>
      match h.lookup i with
      | none => none
      | some b =>
        if isBaseOf T b.ty then
          match construct_from_copy h T w with
          | none => none
          | some r => some (r.1, w, r.2.1, r.2.2)
        else some (h, w, none, some CppException.bad_indirect_cast)
  else none

/-- dynamic_indirect_cast, move form (indirect.h lines 247-252): the
runtime check precedes the consuming static_indirect_cast, so a failed
check leaves the source untouched. -/
def dynamic_indirect_cast_move (h : Heap) (T : CppType) (w : indirect) :
    Option (Heap × indirect × Option indirect × Option CppException) :=
  if staticCastOk T w.viewTy then
    match w.ptr with
    | none => some (h, w, none, some CppException.bad_indirect_cast)
    | some i =>
      match h.lookup i with
      | none => none
      | some b =>
        if isBaseOf T b.ty then
          match construct_from_move h T w with
          | none => none
          | some r => some (r.1, w, some r.2, none)
        else some (h, w, none, some CppException.bad_indirect_cast)
  else none

/-- Class invariant of the wrapper: the owning handle and the view
pointer are the same non-null address of a live control block. -/
def inv (h : Heap) (w : indirect) : Prop :=
  ∃ i b, w.cb = some i ∧ w.ptr = some i ∧ h.lookup i = some b

/-- Enumeration of the public operations of the wrapper; the two operand
slots of runOp are used by the binary operations, the first slot by the
unary ones. -/
inductive PublicOp where
  | op_default (T : CppType)
  | op_in_place (T : CppType) (v : Int)
  | op_value_construct_move (T U : CppType) (v : Int)
  | op_value_construct_copy (T U : CppType) (v : Int)
  | op_value_assign (U : CppType) (v : Int)
  | op_copy_construct
  | op_move_construct
  | op_copy_assign
  | op_move_assign
  | op_copy_assign_self
  | op_move_assign_self
  | op_upcast_copy_construct (T : CppType)
  | op_upcast_move_construct (T : CppType)
  | op_upcast_copy_assign
  | op_upcast_move_assign
  | op_swap
  | op_static_cast_copy (T : CppType)
  | op_static_cast_move (T : CppType)
  | op_dynamic_cast_copy (T : CppType)
  | op_dynamic_cast_move (T : CppType)

/-- One public operation applied to operand wrappers w1 and w2 (w2
ignored by the unary operations): yields the heap after the call and the
list of wrappers alive afterwards (operands as the call leaves them,
plus any newly constructed wrapper). -/
def runOp (op : PublicOp) (h : Heap) (w1 w2 : indirect) : Option (Heap × List indirect) :=
  match op with
  | PublicOp.op_default T => (default_construct h T).map (fun r => (r.1, [r.2]))
  | PublicOp.op_in_place T v => (in_place_construct h T v).map (fun r => (r.1, [r.2]))
  | PublicOp.op_value_construct_move T U v =>
    (value_construct_move h T U v).map (fun r => (r.1, [r.2]))
  | PublicOp.op_value_construct_copy T U v =>
    (value_construct_copy h T U v).map (fun r => (r.1, r.2.1.toList))
  | PublicOp.op_value_assign U v => (value_assign h w1 U v).map (fun r => (r.1, [r.2]))
  | PublicOp.op_copy_construct => (copy_construct h w1).map (fun r => (r.1, w1 :: r.2.1.toList))
  | PublicOp.op_move_construct => (move_construct h w1).map (fun r => (r.1, [w1, r.2]))
  | PublicOp.op_copy_assign => (copy_assign h w1 w2).map (fun r => (r.1, [r.2.1, w2]))
  | PublicOp.op_move_assign => (move_assign h w1 w2).map (fun r => (r.1, [r.2, w2]))
  | PublicOp.op_copy_assign_self => (copy_assign h w1 w1).map (fun r => (r.1, [r.2.1]))
  | PublicOp.op_move_assign_self => (move_assign h w1 w1).map (fun r => (r.1, [r.2]))
  | PublicOp.op_upcast_copy_construct T =>
    (upcast_copy_construct h T w1).map (fun r => (r.1, w1 :: r.2.1.toList))
  | PublicOp.op_upcast_move_construct T =>
    (upcast_move_construct h T w1).map (fun r => (r.1, [w1, r.2]))
  | PublicOp.op_upcast_copy_assign =>
    (upcast_copy_assign h w1 w2).map (fun r => (r.1, [r.2.1, w2]))
  | PublicOp.op_upcast_move_assign =>
    (upcast_move_assign h w1 w2).map (fun r => (r.1, [r.2, w2]))
  | PublicOp.op_swap => (swap h w1 w2).map (fun r => (r.1, [r.2.1, r.2.2]))
  | PublicOp.op_static_cast_copy T =>
    (static_indirect_cast_copy h T w1).map (fun r => (r.1, w1 :: r.2.1.toList))
  | PublicOp.op_static_cast_move T =>
    (static_indirect_cast_move h T w1).map (fun r => (r.1, [w1, r.2]))
  | PublicOp.op_dynamic_cast_copy T =>
    (dynamic_indirect_cast_copy h T w1).map (fun r => (r.1, r.2.1 :: r.2.2.1.toList))
  | PublicOp.op_dynamic_cast_move T =>
    (dynamic_indirect_cast_move h T w1).map (fun r => (r.1, r.2.1 :: r.2.2.1.toList))

end CppIndirect

namespace MultiBase

/-- Two unrelated, non-primary-sharing base-view types of one concrete
multiply-derived class (the shape of MultiplyDerived in
TestDeepPtr.cpp lines 534-538). -/
inductive BaseView where
  | B1
  | B2
deriving DecidableEq

/-- Subobject offsets of the two base views inside the concrete object:
where each base subobject starts, relative to the object's address. -/
structure TwoBaseLayout where
  offB1 : Nat
  offB2 : Nat
deriving DecidableEq

/-- direct_control_block::ptr (indirect.h lines 49-52): returns the
address of the stored concrete object as an untyped void pointer, i.e.
the object's own start address, with no view-specific adjustment. -/
def control_block_ptr (objAddr : Nat) : Nat := objAddr

/-- The data constructor of indirect (indirect.h lines 72-76): ptr is
initialised as static_cast applied to cb_->ptr().  A static_cast from a
void pointer reinterprets the numeric address unchanged; because the
concrete type was erased to void, the derived-to-base subobject
adjustment cannot be applied, whatever base view is requested. -/
def data_view_ptr (_viewT : BaseView) (rawAddr : Nat) : Nat := rawAddr

/-- Modelled from the spec: section 4.3 (offset correctness requirement)
defines the view pointer for a base view as the concrete object's
address plus that specific base's subobject offset — what a static_cast
from the concrete type to the base type computes. -/
def spec_base_view_addr (L : TwoBaseLayout) (viewT : BaseView) (objAddr : Nat) : Nat :=
  match viewT with
  | BaseView.B1 => objAddr + L.offB1
  | BaseView.B2 => objAddr + L.offB2

/-- Memory contents of one concrete object with two base subobjects,
each holding one field of its own at the start of its subobject: the
first base's field holds xv, the second base's field holds yv. -/
def twoBaseObjMem (L : TwoBaseLayout) (objAddr : Nat) (xv yv : Int) : Nat → Option Int :=
  fun a =>
    if a = objAddr + L.offB1 then some xv
    else if a = objAddr + L.offB2 then some yv
    else none

/-- Member access of a base's own field through a view pointer: reads at
the view address (the field sits at offset zero inside its base
subobject). -/
def read_base_field (mem : Nat → Option Int) (viewAddr : Nat) : Option Int :=
  mem viewAddr

end MultiBase

namespace CppIndirect

theorem blkFind_lt {n : Nat} {l : List (Nat × direct_control_block)} {i : Nat}
    {b : direct_control_block} (hb : ∀ p ∈ l, p.1 < n) (hl : blkFind l i = some b) :
    i < n := by
  induction l with
  | nil => simp [blkFind] at hl
  | cons p ps ih =>
    by_cases hp : p.1 = i
    · exact hp ▸ hb p (List.mem_cons_self p ps)
    · simp only [blkFind, if_neg hp] at hl
      exact ih (fun q hq => hb q (List.mem_cons_of_mem p hq)) hl

theorem blkFind_update_self {l : List (Nat × direct_control_block)} {i : Nat}
    {bOld : direct_control_block} (b : direct_control_block)
    (hl : blkFind l i = some bOld) : blkFind (blkUpdate l i b) i = some b := by
  induction l with
  | nil => simp [blkFind] at hl
  | cons p ps ih =>
    by_cases hp : p.1 = i
    · simp [blkUpdate, blkFind, hp]
    · simp only [blkFind, if_neg hp] at hl
      simp only [blkUpdate, if_neg hp, blkFind, if_neg hp]
      exact ih hl

theorem blkFind_update_ne {l : List (Nat × direct_control_block)} {i j : Nat}
    (b : direct_control_block) (hij : j ≠ i) :
    blkFind (blkUpdate l i b) j = blkFind l j := by
  induction l with
  | nil => rfl
  | cons p ps ih =>
    by_cases hp : p.1 = i
    · simp [blkUpdate, blkFind, hp, Ne.symm hij, ih]
    · simp [blkUpdate, blkFind, hp, ih]

theorem blkFind_free_ne {l : List (Nat × direct_control_block)} {i j : Nat} (hij : j ≠ i) :
    blkFind (blkFree l i) j = blkFind l j := by
  induction l with
  | nil => rfl
  | cons p ps ih =>
    by_cases hp : p.1 = i
    · simp [blkFree, blkFind, hp, Ne.symm hij, ih]
    · simp [blkFree, blkFind, hp, ih]

theorem blkUpdate_length (l : List (Nat × direct_control_block)) (i : Nat)
    (b : direct_control_block) : (blkUpdate l i b).length = l.length := by
  induction l with
  | nil => rfl
  | cons p ps ih => by_cases hp : p.1 = i <;> simp [blkUpdate, hp, ih]

theorem Heap.lookup_alloc (h : Heap) (b : direct_control_block) :
    (h.alloc b).1.lookup (h.alloc b).2 = some b := by
  simp [Heap.alloc, Heap.lookup, blkFind]

theorem Heap.lookup_alloc_ne (h : Heap) (b : direct_control_block) {i : Nat}
    (hi : i ≠ h.next) : (h.alloc b).1.lookup i = h.lookup i := by
  simp [Heap.alloc, Heap.lookup, blkFind, Ne.symm hi]

theorem Heap.lookup_lt_next {h : Heap} (hwf : h.wf) {i : Nat} {b : direct_control_block}
    (hl : h.lookup i = some b) : i < h.next :=
  blkFind_lt hwf hl

theorem Heap.lookup_update_self {h : Heap} {i : Nat} {bOld : direct_control_block}
    (b : direct_control_block) (hl : h.lookup i = some bOld) :
    (h.update i b).lookup i = some b :=
  blkFind_update_self b hl

theorem Heap.lookup_update_ne (h : Heap) {i j : Nat} (b : direct_control_block)
    (hij : j ≠ i) : (h.update i b).lookup j = h.lookup j :=
  blkFind_update_ne b hij

theorem Heap.lookup_free_ne (h : Heap) {i j : Nat} (hij : j ≠ i) :
    (h.free i).lookup j = h.lookup j :=
  blkFind_free_ne hij

theorem copyCtor_preserves {ty : CppType} {t v : Int} (hc : ty.copyCtor t = some v) :
    v = t := by
  cases ty with
  | throwy =>
    simp only [CppType.copyCtor] at hc
    by_cases ht : t < 0
    · simp [if_pos ht] at hc
    · simp [if_neg ht] at hc
      exact hc.symm
  | base => simp only [CppType.copyCtor, Option.some.injEq] at hc; exact hc.symm
  | derived => simp only [CppType.copyCtor, Option.some.injEq] at hc; exact hc.symm
  | derivedOther => simp only [CppType.copyCtor, Option.some.injEq] at hc; exact hc.symm

end CppIndirect

namespace MultiBase

/-- C1: refuted on the code.  For a concrete type with two unrelated
base views laid out at offsets 0 and 16 inside the object (object at
address 100, first base field 3, second base field 101), the view
pointer computed by indirect's data constructor from
direct_control_block::ptr is the unadjusted object address for both base
views, so the two casts yield the same numeric address and member access
through the second base view reads the first base's field (3); the
spec-required per-base subobject addresses differ by the non-zero
inter-base offset 16 and read the second base's own field (101). -/
theorem C1_view_ptr_ignores_base_offset :
    data_view_ptr BaseView.B2 (control_block_ptr 100)
      = data_view_ptr BaseView.B1 (control_block_ptr 100)
  ∧ read_base_field (twoBaseObjMem ⟨0, 16⟩ 100 3 101)
      (data_view_ptr BaseView.B2 (control_block_ptr 100)) = some 3
  ∧ read_base_field (twoBaseObjMem ⟨0, 16⟩ 100 3 101)
      (spec_base_view_addr ⟨0, 16⟩ BaseView.B2 100) = some 101
  ∧ spec_base_view_addr ⟨0, 16⟩ BaseView.B2 100
      - spec_base_view_addr ⟨0, 16⟩ BaseView.B1 100 = 16
  ∧ spec_base_view_addr ⟨0, 16⟩ BaseView.B2 100
      ≠ spec_base_view_addr ⟨0, 16⟩ BaseView.B1 100 := by
  decide

end MultiBase

namespace CppIndirect

/-- C9: swap on two wrappers of the same view type exchanges their
control blocks and view pointers exactly (each ends up holding the
other's prior block and observable value), leaves the heap unchanged —
so it performs no allocation — and always succeeds. -/
theorem C9_swap_exchanges_exactly (h : Heap) (w1 w2 : indirect)
    (hvt : w1.viewTy = w2.viewTy) :
    swap h w1 w2 = some (h, ⟨w1.viewTy, w2.ptr, w2.cb⟩, ⟨w2.viewTy, w1.ptr, w1.cb⟩)
  ∧ get_value h ⟨w1.viewTy, w2.ptr, w2.cb⟩ = get_value h w2
  ∧ get_value h ⟨w2.viewTy, w1.ptr, w1.cb⟩ = get_value h w1 :=
  ⟨by simp [swap, hvt], rfl, rfl⟩

/-- C9 witness: swap applied at concrete wrappers holding derived values
1 and 2 in a two-block heap. -/
theorem C9_swap_witness :
    swap ⟨2, [(0, ⟨CppType.derived, 1⟩), (1, ⟨CppType.derived, 2⟩)]⟩
        ⟨CppType.derived, some 0, some 0⟩ ⟨CppType.derived, some 1, some 1⟩
      = some (⟨2, [(0, ⟨CppType.derived, 1⟩), (1, ⟨CppType.derived, 2⟩)]⟩,
        ⟨CppType.derived, some 1, some 1⟩, ⟨CppType.derived, some 0, some 0⟩)
  ∧ get_value ⟨2, [(0, ⟨CppType.derived, 1⟩), (1, ⟨CppType.derived, 2⟩)]⟩
        ⟨CppType.derived, some 1, some 1⟩
      = get_value ⟨2, [(0, ⟨CppType.derived, 1⟩), (1, ⟨CppType.derived, 2⟩)]⟩
        ⟨CppType.derived, some 1, some 1⟩
  ∧ get_value ⟨2, [(0, ⟨CppType.derived, 1⟩), (1, ⟨CppType.derived, 2⟩)]⟩
        ⟨CppType.derived, some 0, some 0⟩
      = get_value ⟨2, [(0, ⟨CppType.derived, 1⟩), (1, ⟨CppType.derived, 2⟩)]⟩
        ⟨CppType.derived, some 0, some 0⟩ :=
  C9_swap_exchanges_exactly _ _ _ rfl

/-- C3: a checked downcast to a type incompatible with the stored
concrete type fails with bad_indirect_cast — a distinct catchable
condition — and leaves the heap and the source wrapper exactly as they
were, in both the copy form and the move form: the runtime check runs
before the block is copied or consumed. -/
theorem C3_dynamic_cast_failure_is_clean (h : Heap) (T : CppType) (w : indirect)
    {i : Nat} {b : direct_control_block}
    (hptr : w.ptr = some i) (hl : h.lookup i = some b)
    (hok : staticCastOk T w.viewTy = true) (hbad : isBaseOf T b.ty = false) :
    dynamic_indirect_cast_copy h T w
      = some (h, w, none, some CppException.bad_indirect_cast)
  ∧ dynamic_indirect_cast_move h T w
      = some (h, w, none, some CppException.bad_indirect_cast) := by
  constructor
  · simp [dynamic_indirect_cast_copy, hok, hptr, hl, hbad]
  · simp [dynamic_indirect_cast_move, hok, hptr, hl, hbad]

/-- C3 witness: a base-view wrapper holding a derived value, downcast to
derived_other, fails cleanly in both forms. -/
theorem C3_dynamic_cast_failure_witness :
    dynamic_indirect_cast_copy ⟨1, [(0, ⟨CppType.derived, 42⟩)]⟩ CppType.derivedOther
        ⟨CppType.base, some 0, some 0⟩
      = some (⟨1, [(0, ⟨CppType.derived, 42⟩)]⟩, ⟨CppType.base, some 0, some 0⟩, none,
        some CppException.bad_indirect_cast)
  ∧ dynamic_indirect_cast_move ⟨1, [(0, ⟨CppType.derived, 42⟩)]⟩ CppType.derivedOther
        ⟨CppType.base, some 0, some 0⟩
      = some (⟨1, [(0, ⟨CppType.derived, 42⟩)]⟩, ⟨CppType.base, some 0, some 0⟩, none,
        some CppException.bad_indirect_cast) :=
  C3_dynamic_cast_failure_is_clean _ _ _ rfl rfl rfl rfl

/-- C8: copy assignment has strong exception safety: when cloning the
source's block fails because the payload's copy constructor throws, the
exception propagates as copy_failure, the heap is unchanged — the
target's original block is never released — and the target wrapper is
returned exactly as it was. -/
theorem C8_copy_assign_strong_exception_safety (h : Heap) (w other : indirect)
    {i : Nat} {b : direct_control_block}
    (hcb : other.cb = some i) (hl : h.lookup i = some b)
    (hfail : b.ty.copyCtor b.t = none) :
    copy_assign h w other = some (h, w, some CppException.copy_failure) := by
  simp [copy_assign, hcb, hl, hfail]

/-- C8 witness: assigning from a throwy payload holding -1 (whose copy
constructor throws) to a target holding 7 leaves everything unchanged. -/
theorem C8_copy_assign_exception_witness :
    copy_assign ⟨2, [(0, ⟨CppType.throwy, 7⟩), (1, ⟨CppType.throwy, -1⟩)]⟩
        ⟨CppType.throwy, some 0, some 0⟩ ⟨CppType.throwy, some 1, some 1⟩
      = some (⟨2, [(0, ⟨CppType.throwy, 7⟩), (1, ⟨CppType.throwy, -1⟩)]⟩,
        ⟨CppType.throwy, some 0, some 0⟩, some CppException.copy_failure) :=
  C8_copy_assign_strong_exception_safety _ _ _ rfl rfl (by decide)

/-- C2 counterexample: move construction from a base-view wrapper
holding derived 42 allocates a new block (address 1, not the source's
block 0: the result does not hold the source's prior block), and the
source is not empty afterwards — its has-value query is true and access
still succeeds, yielding the moved-from value 0. -/
theorem C2_move_counterexample :
    move_construct ⟨1, [(0, ⟨CppType.derived, 42⟩)]⟩ ⟨CppType.base, some 0, some 0⟩
      = some (⟨2, [(1, ⟨CppType.derived, 42⟩), (0, ⟨CppType.derived, 0⟩)]⟩,
        ⟨CppType.base, some 1, some 1⟩)
  ∧ (some 1 : Option Nat) ≠ some 0
  ∧ has_value ⟨CppType.base, some 0, some 0⟩ = true
  ∧ get_value ⟨2, [(1, ⟨CppType.derived, 42⟩), (0, ⟨CppType.derived, 0⟩)]⟩
      ⟨CppType.base, some 0, some 0⟩ = some 0 := by
  decide

/-- C5 counterexample: move-assigning a wrapper holding derived 42 to
itself does not leave it empty: it ends up owning a fresh block (address
1) holding 42, its has-value query is true and access succeeds. -/
theorem C5_self_move_assign_counterexample :
    move_assign ⟨1, [(0, ⟨CppType.derived, 42⟩)]⟩ ⟨CppType.derived, some 0, some 0⟩
        ⟨CppType.derived, some 0, some 0⟩
      = some (⟨2, [(1, ⟨CppType.derived, 42⟩)]⟩, ⟨CppType.derived, some 1, some 1⟩)
  ∧ has_value ⟨CppType.derived, some 1, some 1⟩ = true
  ∧ get_value ⟨2, [(1, ⟨CppType.derived, 42⟩)]⟩ ⟨CppType.derived, some 1, some 1⟩
      = some 42 := by
  decide

/-- C6 counterexample: copy-assigning a wrapper holding derived 42 to
itself preserves the value but not the address: the held object moves
from block 0 to the freshly cloned block 1, so the held object's address
is not the same after the assignment as before. -/
theorem C6_self_copy_assign_counterexample :
    copy_assign ⟨1, [(0, ⟨CppType.derived, 42⟩)]⟩ ⟨CppType.derived, some 0, some 0⟩
        ⟨CppType.derived, some 0, some 0⟩
      = some (⟨2, [(1, ⟨CppType.derived, 42⟩)]⟩, ⟨CppType.derived, some 1, some 1⟩, none)
  ∧ ¬ ((⟨CppType.derived, some 1, some 1⟩ : indirect).cb
      = (⟨CppType.derived, some 0, some 0⟩ : indirect).cb) := by
  decide

end CppIndirect

namespace CppIndirect

/-- C2 amended: move-constructing or move-assigning from a non-empty
wrapper W builds a NEW control block (a fresh allocation, not W's prior
block) whose value is move-constructed from W's value; W keeps its
original block, which is left holding the payload's moved-from value, so
W stays non-empty: its has-value query is still true and access still
succeeds. -/
theorem C2_move_amended (h : Heap) (w wt : indirect) {i j : Nat}
    {b bt : direct_control_block} (hwf : h.wf)
    (hcb : w.cb = some i) (hptr : w.ptr = some i) (hl : h.lookup i = some b)
    (htcb : wt.cb = some j) (hlt : h.lookup j = some bt) (hij : j ≠ i) :
    (∃ p, move_construct h w = some p
      ∧ p.2.cb ≠ w.cb
      ∧ p.1.blocks.length = h.blocks.length + 1
      ∧ has_value w = true
      ∧ get_value p.1 w = some (b.ty.get_value (b.ty.moveCtor b.t).2)
      ∧ get_value p.1 p.2 = some (b.ty.get_value (b.ty.moveCtor b.t).1))
  ∧ (∃ q, move_assign h wt w = some q
      ∧ q.2.cb ≠ w.cb
      ∧ get_value q.1 w = some (b.ty.get_value (b.ty.moveCtor b.t).2)
      ∧ get_value q.1 q.2 = some (b.ty.get_value (b.ty.moveCtor b.t).1)) := by
  have hin : i < h.next := Heap.lookup_lt_next hwf hl
  have hjn : j < h.next := Heap.lookup_lt_next hwf hlt
  have hine : i ≠ h.next := Nat.ne_of_lt hin
  have hupl : (h.update i ⟨b.ty, (b.ty.moveCtor b.t).2⟩).lookup i
      = some ⟨b.ty, (b.ty.moveCtor b.t).2⟩ := Heap.lookup_update_self _ hl
  constructor
  · refine ⟨(((h.update i ⟨b.ty, (b.ty.moveCtor b.t).2⟩).alloc
        ⟨b.ty, (b.ty.moveCtor b.t).1⟩).1, ⟨w.viewTy, some h.next, some h.next⟩),
      ?_, ?_, ?_, ?_, ?_, ?_⟩
    · simp [move_construct, construct_from_move, hcb, hl, Heap.update, Heap.alloc]
    · simp only [hcb, ne_eq, Option.some.injEq]
      exact Ne.symm hine
    · simp [Heap.alloc, Heap.update, blkUpdate_length]
    · simp [has_value, hptr]
    · have hlk : (((h.update i ⟨b.ty, (b.ty.moveCtor b.t).2⟩).alloc
          ⟨b.ty, (b.ty.moveCtor b.t).1⟩).1).lookup i
          = some ⟨b.ty, (b.ty.moveCtor b.t).2⟩ := by
        rw [Heap.lookup_alloc_ne (h.update i ⟨b.ty, (b.ty.moveCtor b.t).2⟩) _ hine]
        exact hupl
      simp [get_value, hptr, hlk]
    · have hlk : (((h.update i ⟨b.ty, (b.ty.moveCtor b.t).2⟩).alloc
          ⟨b.ty, (b.ty.moveCtor b.t).1⟩).1).lookup h.next
          = some ⟨b.ty, (b.ty.moveCtor b.t).1⟩ :=
        Heap.lookup_alloc _ _
      simp [get_value, hlk]
  · refine ⟨((((h.update i ⟨b.ty, (b.ty.moveCtor b.t).2⟩).alloc
        ⟨b.ty, (b.ty.moveCtor b.t).1⟩).1).free j,
      ⟨wt.viewTy, some h.next, some h.next⟩), ?_, ?_, ?_, ?_⟩
    · simp [move_assign, hcb, hl, htcb, Heap.update, Heap.alloc, Heap.free]
    · simp only [hcb, ne_eq, Option.some.injEq]
      exact Ne.symm hine
    · have hlk : (((((h.update i ⟨b.ty, (b.ty.moveCtor b.t).2⟩).alloc
          ⟨b.ty, (b.ty.moveCtor b.t).1⟩).1).free j).lookup i)
          = some ⟨b.ty, (b.ty.moveCtor b.t).2⟩ := by
        rw [Heap.lookup_free_ne _ (Ne.symm hij),
          Heap.lookup_alloc_ne (h.update i ⟨b.ty, (b.ty.moveCtor b.t).2⟩) _ hine]
        exact hupl
      simp [get_value, hptr, hlk]
    · have hlk : (((((h.update i ⟨b.ty, (b.ty.moveCtor b.t).2⟩).alloc
          ⟨b.ty, (b.ty.moveCtor b.t).1⟩).1).free j).lookup h.next)
          = some ⟨b.ty, (b.ty.moveCtor b.t).1⟩ := by
        rw [Heap.lookup_free_ne _ (Ne.symm (Nat.ne_of_lt hjn))]
        exact Heap.lookup_alloc _ _
      simp [get_value, hlk]

/-- C2 amended witness: the amended move behaviour at concrete wrappers,
the source holding derived 42 and the assignment target derived 7. -/
theorem C2_move_amended_witness :
    (∃ p, move_construct ⟨2, [(0, ⟨CppType.derived, 42⟩), (1, ⟨CppType.derived, 7⟩)]⟩
        ⟨CppType.base, some 0, some 0⟩ = some p
      ∧ p.2.cb ≠ some 0
      ∧ p.1.blocks.length = 3
      ∧ has_value ⟨CppType.base, some 0, some 0⟩ = true
      ∧ get_value p.1 ⟨CppType.base, some 0, some 0⟩ = some 0
      ∧ get_value p.1 p.2 = some 42)
  ∧ (∃ q, move_assign ⟨2, [(0, ⟨CppType.derived, 42⟩), (1, ⟨CppType.derived, 7⟩)]⟩
        ⟨CppType.base, some 1, some 1⟩ ⟨CppType.base, some 0, some 0⟩ = some q
      ∧ q.2.cb ≠ some 0
      ∧ get_value q.1 ⟨CppType.base, some 0, some 0⟩ = some 0
      ∧ get_value q.1 q.2 = some 42) :=
  C2_move_amended ⟨2, [(0, ⟨CppType.derived, 42⟩), (1, ⟨CppType.derived, 7⟩)]⟩
    ⟨CppType.base, some 0, some 0⟩ ⟨CppType.base, some 1, some 1⟩
    (by decide) rfl rfl rfl rfl rfl (by decide)

/-- C5 amended: move-assigning a non-empty wrapper to itself leaves it
NON-empty: it ends up owning a freshly allocated block (a new address)
whose value is move-constructed from its own prior value; its has-value
query stays true and access still succeeds. -/
theorem C5_self_move_assign_amended (h : Heap) (w : indirect) {i : Nat}
    {b : direct_control_block} (hwf : h.wf)
    (hcb : w.cb = some i) (hptr : w.ptr = some i) (hl : h.lookup i = some b) :
    ∃ q, move_assign h w w = some q
      ∧ has_value q.2 = true
      ∧ q.2.cb ≠ w.cb
      ∧ get_value q.1 q.2 = some (b.ty.get_value (b.ty.moveCtor b.t).1) := by
  have hin : i < h.next := Heap.lookup_lt_next hwf hl
  have hine : i ≠ h.next := Nat.ne_of_lt hin
  refine ⟨((((h.update i ⟨b.ty, (b.ty.moveCtor b.t).2⟩).alloc
      ⟨b.ty, (b.ty.moveCtor b.t).1⟩).1).free i,
    ⟨w.viewTy, some h.next, some h.next⟩), ?_, ?_, ?_, ?_⟩
  · simp [move_assign, hcb, hl, Heap.update, Heap.alloc, Heap.free]
  · simp [has_value]
  · simp only [hcb, ne_eq, Option.some.injEq]
    exact Ne.symm hine
  · have hlk : (((((h.update i ⟨b.ty, (b.ty.moveCtor b.t).2⟩).alloc
        ⟨b.ty, (b.ty.moveCtor b.t).1⟩).1).free i).lookup h.next)
        = some ⟨b.ty, (b.ty.moveCtor b.t).1⟩ := by
      rw [Heap.lookup_free_ne _ (Ne.symm hine)]
      exact Heap.lookup_alloc _ _
    simp [get_value, hlk]

/-- C5 amended witness: self move assignment of a wrapper holding
derived 42. -/
theorem C5_self_move_assign_amended_witness :
    ∃ q, move_assign ⟨1, [(0, ⟨CppType.derived, 42⟩)]⟩ ⟨CppType.derived, some 0, some 0⟩
        ⟨CppType.derived, some 0, some 0⟩ = some q
      ∧ has_value q.2 = true
      ∧ q.2.cb ≠ some 0
      ∧ get_value q.1 q.2 = some 42 :=
  C5_self_move_assign_amended ⟨1, [(0, ⟨CppType.derived, 42⟩)]⟩
    ⟨CppType.derived, some 0, some 0⟩ (by decide) rfl rfl rfl

/-- C6 amended: copy-assigning a non-empty wrapper to itself preserves
its observable value — the clone is taken from the still-intact original
block before the old block is released, and no exception escapes — but
the held object ends up in a freshly allocated block at a different
address; the address is not stable. -/
theorem C6_self_copy_assign_amended (h : Heap) (w : indirect) {i : Nat}
    {b : direct_control_block} {v : Int} (hwf : h.wf)
    (hcb : w.cb = some i) (hptr : w.ptr = some i) (hl : h.lookup i = some b)
    (hcopy : b.ty.copyCtor b.t = some v) :
    ∃ q, copy_assign h w w = some q
      ∧ q.2.2 = none
      ∧ get_value q.1 q.2.1 = get_value h w
      ∧ q.2.1.cb ≠ w.cb := by
  have hin : i < h.next := Heap.lookup_lt_next hwf hl
  have hine : i ≠ h.next := Nat.ne_of_lt hin
  have hvb : v = b.t := copyCtor_preserves hcopy
  subst hvb
  refine ⟨(((h.alloc ⟨b.ty, b.t⟩).1).free i,
    ⟨w.viewTy, some h.next, some h.next⟩, none), ?_, ?_, ?_, ?_⟩
  · simp [copy_assign, hcb, hl, hcopy, Heap.alloc, Heap.free]
  · rfl
  · have hlk : ((((h.alloc ⟨b.ty, b.t⟩).1).free i).lookup h.next) = some ⟨b.ty, b.t⟩ := by
      rw [Heap.lookup_free_ne _ (Ne.symm hine)]
      exact Heap.lookup_alloc _ _
    simp [get_value, hptr, hl, hlk]
  · simp only [hcb, ne_eq, Option.some.injEq]
    exact Ne.symm hine

/-- C6 amended witness: self copy assignment of a wrapper holding
derived 42 keeps the value 42 but moves it to a new block address. -/
theorem C6_self_copy_assign_amended_witness :
    ∃ q, copy_assign ⟨1, [(0, ⟨CppType.derived, 42⟩)]⟩ ⟨CppType.derived, some 0, some 0⟩
        ⟨CppType.derived, some 0, some 0⟩ = some q
      ∧ q.2.2 = none
      ∧ get_value q.1 q.2.1
          = get_value ⟨1, [(0, ⟨CppType.derived, 42⟩)]⟩ ⟨CppType.derived, some 0, some 0⟩
      ∧ q.2.1.cb ≠ some 0 :=
  C6_self_copy_assign_amended ⟨1, [(0, ⟨CppType.derived, 42⟩)]⟩
    ⟨CppType.derived, some 0, some 0⟩ (by decide) rfl rfl rfl rfl

end CppIndirect

namespace CppIndirect

/-- C4: every copying path — copy construction, copy assignment, and
upcast conversion construction — clones a control block of the same
concrete variant as the source's, running that concrete type's own copy
constructor; the fresh block behind the new wrapper is exactly the
source's concrete type with its copy-constructed value, never a sliced
base value, even when the wrapper's declared view type is a base. -/
theorem C4_copy_preserves_concrete_type (h : Heap) (w wt : indirect) (T : CppType)
    {i j : Nat} {b bt : direct_control_block} {v : Int} (hwf : h.wf)
    (hcb : w.cb = some i) (hl : h.lookup i = some b)
    (htcb : wt.cb = some j) (hlt : h.lookup j = some bt)
    (hcopy : b.ty.copyCtor b.t = some v) (hup : isBaseOf T w.viewTy = true) :
    (copy_construct h w = some ((h.alloc ⟨b.ty, v⟩).1,
        some ⟨w.viewTy, some h.next, some h.next⟩, none)
      ∧ ((h.alloc ⟨b.ty, v⟩).1).lookup h.next = some ⟨b.ty, v⟩)
  ∧ (copy_assign h wt w = some (((h.alloc ⟨b.ty, v⟩).1).free j,
        ⟨wt.viewTy, some h.next, some h.next⟩, none)
      ∧ (((h.alloc ⟨b.ty, v⟩).1).free j).lookup h.next = some ⟨b.ty, v⟩)
  ∧ (upcast_copy_construct h T w = some ((h.alloc ⟨b.ty, v⟩).1,
        some ⟨T, some h.next, some h.next⟩, none)
      ∧ ((h.alloc ⟨b.ty, v⟩).1).lookup h.next = some ⟨b.ty, v⟩) := by
  have hjn : j < h.next := Heap.lookup_lt_next hwf hlt
  have halloc : ((h.alloc ⟨b.ty, v⟩).1).lookup h.next = some ⟨b.ty, v⟩ :=
    Heap.lookup_alloc _ _
  refine ⟨⟨?_, halloc⟩, ⟨?_, ?_⟩, ⟨?_, halloc⟩⟩
  · simp [copy_construct, construct_from_copy, hcb, hl, hcopy, Heap.alloc]
  · simp [copy_assign, hcb, hl, hcopy, htcb, Heap.alloc, Heap.free]
  · rw [Heap.lookup_free_ne _ (Ne.symm (Nat.ne_of_lt hjn))]
    exact halloc
  · simp [upcast_copy_construct, hup, construct_from_copy, hcb, hl, hcopy, Heap.alloc]

/-- C4 witness: copying a wrapper holding derived 42 — plainly, by
assignment over a target holding derived 7, and by upcast construction
to a base view — always clones a derived block with value 42. -/
theorem C4_copy_preserves_concrete_type_witness :
    (copy_construct ⟨2, [(0, ⟨CppType.derived, 42⟩), (1, ⟨CppType.derived, 7⟩)]⟩
        ⟨CppType.derived, some 0, some 0⟩
      = some (⟨3, [(2, ⟨CppType.derived, 42⟩), (0, ⟨CppType.derived, 42⟩),
          (1, ⟨CppType.derived, 7⟩)]⟩, some ⟨CppType.derived, some 2, some 2⟩, none)
      ∧ (⟨3, [(2, ⟨CppType.derived, 42⟩), (0, ⟨CppType.derived, 42⟩),
          (1, ⟨CppType.derived, 7⟩)]⟩ : Heap).lookup 2 = some ⟨CppType.derived, 42⟩)
  ∧ (copy_assign ⟨2, [(0, ⟨CppType.derived, 42⟩), (1, ⟨CppType.derived, 7⟩)]⟩
        ⟨CppType.derived, some 1, some 1⟩ ⟨CppType.derived, some 0, some 0⟩
      = some (⟨3, [(2, ⟨CppType.derived, 42⟩), (0, ⟨CppType.derived, 42⟩)]⟩,
        ⟨CppType.derived, some 2, some 2⟩, none)
      ∧ (⟨3, [(2, ⟨CppType.derived, 42⟩), (0, ⟨CppType.derived, 42⟩)]⟩ : Heap).lookup 2
          = some ⟨CppType.derived, 42⟩)
  ∧ (upcast_copy_construct ⟨2, [(0, ⟨CppType.derived, 42⟩), (1, ⟨CppType.derived, 7⟩)]⟩
        CppType.base ⟨CppType.derived, some 0, some 0⟩
      = some (⟨3, [(2, ⟨CppType.derived, 42⟩), (0, ⟨CppType.derived, 42⟩),
          (1, ⟨CppType.derived, 7⟩)]⟩, some ⟨CppType.base, some 2, some 2⟩, none)
      ∧ (⟨3, [(2, ⟨CppType.derived, 42⟩), (0, ⟨CppType.derived, 42⟩),
          (1, ⟨CppType.derived, 7⟩)]⟩ : Heap).lookup 2 = some ⟨CppType.derived, 42⟩) :=
  C4_copy_preserves_concrete_type ⟨2, [(0, ⟨CppType.derived, 42⟩), (1, ⟨CppType.derived, 7⟩)]⟩
    ⟨CppType.derived, some 0, some 0⟩ ⟨CppType.derived, some 1, some 1⟩ CppType.base
    (by decide) rfl rfl rfl rfl rfl rfl

/-- C7: copy-constructing or copy-assigning from a non-empty wrapper
yields a wrapper holding a different block address with an equal
observable value at the time of copy; afterwards, mutation through the
source is not observable through the copy, and mutation through the copy
is not observable through the source (deep-copy isolation). -/
theorem C7_deep_copy_isolation (h : Heap) (w wt : indirect)
    {i j : Nat} {b bt : direct_control_block} {v : Int} (hwf : h.wf)
    (hcb : w.cb = some i) (hptr : w.ptr = some i) (hl : h.lookup i = some b)
    (htcb : wt.cb = some j) (hlt : h.lookup j = some bt)
    (hij : j ≠ i) (hcopy : b.ty.copyCtor b.t = some v) :
    (∃ r w2, copy_construct h w = some r ∧ r.2.1 = some w2
      ∧ w2.cb ≠ w.cb
      ∧ get_value r.1 w2 = get_value r.1 w
      ∧ (∀ n h3, set_value r.1 w n = some h3 →
          get_value h3 w2 = some (b.ty.get_value b.t))
      ∧ (∀ n h3, set_value r.1 w2 n = some h3 →
          get_value h3 w = some (b.ty.get_value b.t)))
  ∧ (∃ r, copy_assign h wt w = some r ∧ r.2.2 = none
      ∧ r.2.1.cb ≠ w.cb
      ∧ get_value r.1 r.2.1 = get_value r.1 w
      ∧ (∀ n h3, set_value r.1 w n = some h3 →
          get_value h3 r.2.1 = some (b.ty.get_value b.t))
      ∧ (∀ n h3, set_value r.1 r.2.1 n = some h3 →
          get_value h3 w = some (b.ty.get_value b.t))) := by
  have hvb : v = b.t := copyCtor_preserves hcopy
  subst hvb
  have hin : i < h.next := Heap.lookup_lt_next hwf hl
  have hjn : j < h.next := Heap.lookup_lt_next hwf hlt
  have hine : i ≠ h.next := Nat.ne_of_lt hin
  have halloc : ((h.alloc ⟨b.ty, b.t⟩).1).lookup h.next = some ⟨b.ty, b.t⟩ :=
    Heap.lookup_alloc _ _
  have hlkw : ((h.alloc ⟨b.ty, b.t⟩).1).lookup i = some b := by
    rw [Heap.lookup_alloc_ne _ _ hine]
    exact hl
  constructor
  · refine ⟨((h.alloc ⟨b.ty, b.t⟩).1, some ⟨w.viewTy, some h.next, some h.next⟩, none),
      ⟨w.viewTy, some h.next, some h.next⟩, ?_, rfl, ?_, ?_, ?_, ?_⟩
    · simp [copy_construct, construct_from_copy, hcb, hl, hcopy, Heap.alloc]
    · simp only [hcb, ne_eq, Option.some.injEq]
      exact Ne.symm hine
    · simp [get_value, hptr, halloc, hlkw]
    · intro n h3 hset
      simp only [set_value, hptr, hlkw] at hset
      obtain rfl := Option.some.inj hset
      have hlk2 : ((((h.alloc ⟨b.ty, b.t⟩).1).update i
          ⟨b.ty, b.ty.set_value b.t n⟩).lookup h.next) = some ⟨b.ty, b.t⟩ := by
        rw [Heap.lookup_update_ne _ _ (Ne.symm hine)]
        exact halloc
      simp [get_value, hlk2]
    · intro n h3 hset
      simp only [set_value, halloc] at hset
      obtain rfl := Option.some.inj hset
      have hlk2 : ((((h.alloc ⟨b.ty, b.t⟩).1).update h.next
          ⟨b.ty, b.ty.set_value b.t n⟩).lookup i) = some b := by
        rw [Heap.lookup_update_ne _ _ hine]
        exact hlkw
      simp [get_value, hptr, hlk2]
  · have hfne : ((((h.alloc ⟨b.ty, b.t⟩).1).free j).lookup h.next) = some ⟨b.ty, b.t⟩ := by
      rw [Heap.lookup_free_ne _ (Ne.symm (Nat.ne_of_lt hjn))]
      exact halloc
    have hfnw : ((((h.alloc ⟨b.ty, b.t⟩).1).free j).lookup i) = some b := by
      rw [Heap.lookup_free_ne _ (Ne.symm hij)]
      exact hlkw
    refine ⟨(((h.alloc ⟨b.ty, b.t⟩).1).free j,
      ⟨wt.viewTy, some h.next, some h.next⟩, none), ?_, rfl, ?_, ?_, ?_, ?_⟩
    · simp [copy_assign, hcb, hl, hcopy, htcb, Heap.alloc, Heap.free]
    · simp only [hcb, ne_eq, Option.some.injEq]
      exact Ne.symm hine
    · simp [get_value, hptr, hfne, hfnw]
    · intro n h3 hset
      simp only [set_value, hptr, hfnw] at hset
      obtain rfl := Option.some.inj hset
      have hlk2 : (((((h.alloc ⟨b.ty, b.t⟩).1).free j).update i
          ⟨b.ty, b.ty.set_value b.t n⟩).lookup h.next) = some ⟨b.ty, b.t⟩ := by
        rw [Heap.lookup_update_ne _ _ (Ne.symm hine)]
        exact hfne
      simp [get_value, hlk2]
    · intro n h3 hset
      simp only [set_value, hfne] at hset
      obtain rfl := Option.some.inj hset
      have hlk2 : (((((h.alloc ⟨b.ty, b.t⟩).1).free j).update h.next
          ⟨b.ty, b.ty.set_value b.t n⟩).lookup i) = some b := by
        rw [Heap.lookup_update_ne _ _ hine]
        exact hfnw
      simp [get_value, hptr, hlk2]

/-- C7 witness: deep-copy isolation at concrete wrappers, the source
holding derived 42 and the assignment target holding derived 7. -/
theorem C7_deep_copy_isolation_witness :
    (∃ r w2, copy_construct ⟨2, [(0, ⟨CppType.derived, 42⟩), (1, ⟨CppType.derived, 7⟩)]⟩
        ⟨CppType.derived, some 0, some 0⟩ = some r ∧ r.2.1 = some w2
      ∧ w2.cb ≠ some 0
      ∧ get_value r.1 w2 = get_value r.1 ⟨CppType.derived, some 0, some 0⟩
      ∧ (∀ n h3, set_value r.1 ⟨CppType.derived, some 0, some 0⟩ n = some h3 →
          get_value h3 w2 = some 42)
      ∧ (∀ n h3, set_value r.1 w2 n = some h3 →
          get_value h3 ⟨CppType.derived, some 0, some 0⟩ = some 42))
  ∧ (∃ r, copy_assign ⟨2, [(0, ⟨CppType.derived, 42⟩), (1, ⟨CppType.derived, 7⟩)]⟩
        ⟨CppType.derived, some 1, some 1⟩ ⟨CppType.derived, some 0, some 0⟩ = some r
      ∧ r.2.2 = none
      ∧ r.2.1.cb ≠ some 0
      ∧ get_value r.1 r.2.1 = get_value r.1 ⟨CppType.derived, some 0, some 0⟩
      ∧ (∀ n h3, set_value r.1 ⟨CppType.derived, some 0, some 0⟩ n = some h3 →
          get_value h3 r.2.1 = some 42)
      ∧ (∀ n h3, set_value r.1 r.2.1 n = some h3 →
          get_value h3 ⟨CppType.derived, some 0, some 0⟩ = some 42)) :=
  C7_deep_copy_isolation ⟨2, [(0, ⟨CppType.derived, 42⟩), (1, ⟨CppType.derived, 7⟩)]⟩
    ⟨CppType.derived, some 0, some 0⟩ ⟨CppType.derived, some 1, some 1⟩
    (by decide) rfl rfl rfl rfl rfl (by decide) rfl

end CppIndirect

namespace CppIndirect

theorem inv_default_construct {h : Heap} {T : CppType} {r : Heap × indirect}
    (hrun : default_construct h T = some r) : inv r.1 r.2 := by
  unfold default_construct at hrun
  split at hrun
  · obtain rfl := Option.some.inj hrun
    exact ⟨h.next, ⟨T, T.defaultVal⟩, rfl, rfl, Heap.lookup_alloc _ _⟩
  · exact absurd hrun (by simp)

theorem inv_in_place_construct {h : Heap} {T : CppType} {v : Int} {r : Heap × indirect}
    (hrun : in_place_construct h T v = some r) : inv r.1 r.2 := by
  unfold in_place_construct at hrun
  split at hrun
  · obtain rfl := Option.some.inj hrun
    exact ⟨h.next, ⟨T, v⟩, rfl, rfl, Heap.lookup_alloc _ _⟩
  · exact absurd hrun (by simp)

theorem inv_value_construct_move {h : Heap} {T U : CppType} {v : Int} {r : Heap × indirect}
    (hrun : value_construct_move h T U v = some r) : inv r.1 r.2 := by
  unfold value_construct_move at hrun
  split at hrun
  · obtain rfl := Option.some.inj hrun
    exact ⟨h.next, ⟨U, (U.moveCtor v).1⟩, rfl, rfl, Heap.lookup_alloc _ _⟩
  · exact absurd hrun (by simp)

theorem inv_value_construct_copy {h : Heap} {T U : CppType} {v : Int}
    {r : Heap × Option indirect × Option CppException}
    (hrun : value_construct_copy h T U v = some r) :
    ∀ w2 ∈ r.2.1.toList, inv r.1 w2 := by
  unfold value_construct_copy at hrun
  split at hrun
  · rcases hc : U.copyCtor v with _ | v2
    · simp only [hc] at hrun
      obtain rfl := Option.some.inj hrun
      simp
    · simp only [hc] at hrun
      obtain rfl := Option.some.inj hrun
      intro w2 hw2
      simp only [Option.toList_some, List.mem_singleton] at hw2
      subst hw2
      exact ⟨h.next, ⟨U, v2⟩, rfl, rfl, Heap.lookup_alloc _ _⟩
  · exact absurd hrun (by simp)

theorem inv_value_assign {h : Heap} {w : indirect} {U : CppType} {v : Int} (hwf : h.wf)
    (hw : inv h w) {r : Heap × indirect} (hrun : value_assign h w U v = some r) :
    inv r.1 r.2 := by
  rcases hw with ⟨j, bj, hcw, hpw, hlw⟩
  have hjne : j ≠ h.next := Nat.ne_of_lt (Heap.lookup_lt_next hwf hlw)
  unfold value_assign at hrun
  split at hrun
  · simp only [hcw] at hrun
    obtain rfl := Option.some.inj hrun
    refine ⟨h.next, ⟨U, (U.moveCtor v).1⟩, rfl, rfl, ?_⟩
    rw [Heap.lookup_free_ne _ (Ne.symm hjne)]
    exact Heap.lookup_alloc _ _
  · exact absurd hrun (by simp)

theorem inv_construct_from_copy {h : Heap} {T : CppType} {w : indirect} (hwf : h.wf)
    (hw : inv h w) {r : Heap × Option indirect × Option CppException}
    (hrun : construct_from_copy h T w = some r) :
    inv r.1 w ∧ ∀ w2 ∈ r.2.1.toList, inv r.1 w2 := by
  rcases hw with ⟨i, b, hc, hp, hl⟩
  have hine : i ≠ h.next := Nat.ne_of_lt (Heap.lookup_lt_next hwf hl)
  unfold construct_from_copy at hrun
  simp only [hc, hl] at hrun
  rcases hcp : b.ty.copyCtor b.t with _ | v
  · simp only [hcp] at hrun
    obtain rfl := Option.some.inj hrun
    exact ⟨⟨i, b, hc, hp, hl⟩, by simp⟩
  · simp only [hcp] at hrun
    obtain rfl := Option.some.inj hrun
    constructor
    · exact ⟨i, b, hc, hp, by rw [Heap.lookup_alloc_ne _ _ hine]; exact hl⟩
    · intro w2 hw2
      simp only [Option.toList_some, List.mem_singleton] at hw2
      subst hw2
      exact ⟨h.next, ⟨b.ty, v⟩, rfl, rfl, Heap.lookup_alloc _ _⟩

theorem inv_construct_from_move {h : Heap} {T : CppType} {w : indirect} (hwf : h.wf)
    (hw : inv h w) {r : Heap × indirect}
    (hrun : construct_from_move h T w = some r) :
    inv r.1 w ∧ inv r.1 r.2 := by
  rcases hw with ⟨i, b, hc, hp, hl⟩
  have hine : i ≠ h.next := Nat.ne_of_lt (Heap.lookup_lt_next hwf hl)
  unfold construct_from_move at hrun
  simp only [hc, hl] at hrun
  obtain rfl := Option.some.inj hrun
  constructor
  · refine ⟨i, ⟨b.ty, (b.ty.moveCtor b.t).2⟩, hc, hp, ?_⟩
    rw [Heap.lookup_alloc_ne (h.update i ⟨b.ty, (b.ty.moveCtor b.t).2⟩) _ hine]
    exact Heap.lookup_update_self _ hl
  · exact ⟨h.next, ⟨b.ty, (b.ty.moveCtor b.t).1⟩, rfl, rfl, Heap.lookup_alloc _ _⟩

theorem inv_copy_assign {h : Heap} {w other : indirect} (hwf : h.wf)
    (hw : inv h w) (hother : inv h other) {r : Heap × indirect × Option CppException}
    (hrun : copy_assign h w other = some r) :
    inv r.1 r.2.1 ∧ (other.cb ≠ w.cb → inv r.1 other) := by
  rcases hw with ⟨j, bj, hcw, hpw, hlw⟩
  rcases hother with ⟨i, b, hc, hp, hl⟩
  have hine : i ≠ h.next := Nat.ne_of_lt (Heap.lookup_lt_next hwf hl)
  have hjne : j ≠ h.next := Nat.ne_of_lt (Heap.lookup_lt_next hwf hlw)
  unfold copy_assign at hrun
  simp only [hc, hl] at hrun
  rcases hcp : b.ty.copyCtor b.t with _ | v
  · simp only [hcp] at hrun
    obtain rfl := Option.some.inj hrun
    exact ⟨⟨j, bj, hcw, hpw, hlw⟩, fun _ => ⟨i, b, hc, hp, hl⟩⟩
  · simp only [hcp, hcw] at hrun
    obtain rfl := Option.some.inj hrun
    constructor
    · refine ⟨h.next, ⟨b.ty, v⟩, rfl, rfl, ?_⟩
      rw [Heap.lookup_free_ne _ (Ne.symm hjne)]
      exact Heap.lookup_alloc _ _
    · intro hne
      have hij : i ≠ j := by
        intro hcon
        exact hne (by rw [hc, hcw, hcon])
      refine ⟨i, b, hc, hp, ?_⟩
      rw [Heap.lookup_free_ne _ hij, Heap.lookup_alloc_ne _ _ hine]
      exact hl

theorem inv_move_assign {h : Heap} {w other : indirect} (hwf : h.wf)
    (hw : inv h w) (hother : inv h other) {r : Heap × indirect}
    (hrun : move_assign h w other = some r) :
    inv r.1 r.2 ∧ (other.cb ≠ w.cb → inv r.1 other) := by
  rcases hw with ⟨j, bj, hcw, hpw, hlw⟩
  rcases hother with ⟨i, b, hc, hp, hl⟩
  have hine : i ≠ h.next := Nat.ne_of_lt (Heap.lookup_lt_next hwf hl)
  have hjne : j ≠ h.next := Nat.ne_of_lt (Heap.lookup_lt_next hwf hlw)
  unfold move_assign at hrun
  simp only [hc, hl, hcw] at hrun
  obtain rfl := Option.some.inj hrun
  constructor
  · refine ⟨h.next, ⟨b.ty, (b.ty.moveCtor b.t).1⟩, rfl, rfl, ?_⟩
    rw [Heap.lookup_free_ne _ (Ne.symm hjne)]
    exact Heap.lookup_alloc _ _
  · intro hne
    have hij : i ≠ j := by
      intro hcon
      exact hne (by rw [hc, hcw, hcon])
    refine ⟨i, ⟨b.ty, (b.ty.moveCtor b.t).2⟩, hc, hp, ?_⟩
    rw [Heap.lookup_free_ne _ hij,
      Heap.lookup_alloc_ne (h.update i ⟨b.ty, (b.ty.moveCtor b.t).2⟩) _ hine]
    exact Heap.lookup_update_self _ hl

theorem inv_swap {h : Heap} {w1 w2 : indirect} (h1 : inv h w1) (h2 : inv h w2)
    {r : Heap × indirect × indirect} (hrun : swap h w1 w2 = some r) :
    inv r.1 r.2.1 ∧ inv r.1 r.2.2 := by
  rcases h1 with ⟨i, b, hc1, hp1, hl1⟩
  rcases h2 with ⟨i2, b2, hc2, hp2, hl2⟩
  unfold swap at hrun
  split at hrun
  · obtain rfl := Option.some.inj hrun
    exact ⟨⟨i2, b2, hc2, hp2, hl2⟩, ⟨i, b, hc1, hp1, hl1⟩⟩
  · exact absurd hrun (by simp)

theorem inv_dynamic_cast_copy {h : Heap} {T : CppType} {w : indirect} (hwf : h.wf)
    (hw : inv h w) {r : Heap × indirect × Option indirect × Option CppException}
    (hrun : dynamic_indirect_cast_copy h T w = some r) :
    inv r.1 r.2.1 ∧ ∀ w2 ∈ r.2.2.1.toList, inv r.1 w2 := by
  obtain ⟨i, b, hc, hp, hl⟩ := hw
  unfold dynamic_indirect_cast_copy at hrun
  split at hrun
  · simp only [hp, hl] at hrun
    split at hrun
    · rcases hcc : construct_from_copy h T w with _ | r2
      · simp only [hcc] at hrun
        exact Option.noConfusion hrun
      · simp only [hcc] at hrun
        obtain rfl := Option.some.inj hrun
        obtain ⟨hiw, hnew⟩ := inv_construct_from_copy hwf ⟨i, b, hc, hp, hl⟩ hcc
        exact ⟨hiw, hnew⟩
    · obtain rfl := Option.some.inj hrun
      exact ⟨⟨i, b, hc, hp, hl⟩, by simp⟩
  · exact absurd hrun (by simp)

theorem inv_dynamic_cast_move {h : Heap} {T : CppType} {w : indirect} (hwf : h.wf)
    (hw : inv h w) {r : Heap × indirect × Option indirect × Option CppException}
    (hrun : dynamic_indirect_cast_move h T w = some r) :
    inv r.1 r.2.1 ∧ ∀ w2 ∈ r.2.2.1.toList, inv r.1 w2 := by
  obtain ⟨i, b, hc, hp, hl⟩ := hw
  unfold dynamic_indirect_cast_move at hrun
  split at hrun
  · simp only [hp, hl] at hrun
    split at hrun
    · rcases hcc : construct_from_move h T w with _ | r2
      · simp only [hcc] at hrun
        exact Option.noConfusion hrun
      · simp only [hcc] at hrun
        obtain rfl := Option.some.inj hrun
        obtain ⟨hiw, hnew⟩ := inv_construct_from_move hwf ⟨i, b, hc, hp, hl⟩ hcc
        refine ⟨hiw, ?_⟩
        intro w2 hw2
        simp only [Option.toList_some, List.mem_singleton] at hw2
        subst hw2
        exact hnew
    · obtain rfl := Option.some.inj hrun
      exact ⟨⟨i, b, hc, hp, hl⟩, by simp⟩
  · exact absurd hrun (by simp)

end CppIndirect

namespace CppIndirect

/-- C10: after every public operation of the wrapper — any constructor,
copy or move assignment (including to self), swap, or being the source
of a move or of a copy/move cast — every wrapper alive afterwards
satisfies the class invariant: its control-block handle and view pointer
are the same non-null address of a live block, so no reachable state is
empty and dereference and member access always act on a held value,
never on null. -/
theorem C10_no_reachable_empty_state (op : PublicOp) (h : Heap) (w1 w2 : indirect)
    (hwf : h.wf) (h1 : inv h w1) (h2 : inv h w2) (hne : w1.cb ≠ w2.cb)
    {hout : Heap} {ws : List indirect}
    (hrun : runOp op h w1 w2 = some (hout, ws)) :
    ∀ w ∈ ws, inv hout w := by
  cases op with
  | op_default T =>
    simp only [runOp] at hrun
    rcases Option.map_eq_some'.mp hrun with ⟨r, hr, heq⟩
    injection heq with e1 e2
    subst e1; subst e2
    intro w hw
    rw [List.mem_singleton] at hw
    subst hw
    exact inv_default_construct hr
  | op_in_place T v =>
    simp only [runOp] at hrun
    rcases Option.map_eq_some'.mp hrun with ⟨r, hr, heq⟩
    injection heq with e1 e2
    subst e1; subst e2
    intro w hw
    rw [List.mem_singleton] at hw
    subst hw
    exact inv_in_place_construct hr
  | op_value_construct_move T U v =>
    simp only [runOp] at hrun
    rcases Option.map_eq_some'.mp hrun with ⟨r, hr, heq⟩
    injection heq with e1 e2
    subst e1; subst e2
    intro w hw
    rw [List.mem_singleton] at hw
    subst hw
    exact inv_value_construct_move hr
  | op_value_construct_copy T U v =>
    simp only [runOp] at hrun
    rcases Option.map_eq_some'.mp hrun with ⟨r, hr, heq⟩
    injection heq with e1 e2
    subst e1; subst e2
    exact inv_value_construct_copy hr
  | op_value_assign U v =>
    simp only [runOp] at hrun
    rcases Option.map_eq_some'.mp hrun with ⟨r, hr, heq⟩
    injection heq with e1 e2
    subst e1; subst e2
    intro w hw
    rw [List.mem_singleton] at hw
    subst hw
    exact inv_value_assign hwf h1 hr
  | op_copy_construct =>
    simp only [runOp] at hrun
    rcases Option.map_eq_some'.mp hrun with ⟨r, hr, heq⟩
    injection heq with e1 e2
    subst e1; subst e2
    unfold copy_construct at hr
    obtain ⟨hiw, hnew⟩ := inv_construct_from_copy hwf h1 hr
    intro w hw
    rcases List.mem_cons.mp hw with rfl | hw2
    · exact hiw
    · exact hnew w hw2
  | op_move_construct =>
    simp only [runOp] at hrun
    rcases Option.map_eq_some'.mp hrun with ⟨r, hr, heq⟩
    injection heq with e1 e2
    subst e1; subst e2
    unfold move_construct at hr
    obtain ⟨hiw, hnew⟩ := inv_construct_from_move hwf h1 hr
    intro w hw
    simp only [List.mem_cons, List.mem_singleton, List.not_mem_nil, or_false] at hw
    rcases hw with rfl | rfl
    · exact hiw
    · exact hnew
  | op_copy_assign =>
    simp only [runOp] at hrun
    rcases Option.map_eq_some'.mp hrun with ⟨r, hr, heq⟩
    injection heq with e1 e2
    subst e1; subst e2
    obtain ⟨ht, hoth⟩ := inv_copy_assign hwf h1 h2 hr
    intro w hw
    simp only [List.mem_cons, List.mem_singleton, List.not_mem_nil, or_false] at hw
    rcases hw with rfl | rfl
    · exact ht
    · exact hoth (Ne.symm hne)
  | op_move_assign =>
    simp only [runOp] at hrun
    rcases Option.map_eq_some'.mp hrun with ⟨r, hr, heq⟩
    injection heq with e1 e2
    subst e1; subst e2
    obtain ⟨ht, hoth⟩ := inv_move_assign hwf h1 h2 hr
    intro w hw
    simp only [List.mem_cons, List.mem_singleton, List.not_mem_nil, or_false] at hw
    rcases hw with rfl | rfl
    · exact ht
    · exact hoth (Ne.symm hne)
  | op_copy_assign_self =>
    simp only [runOp] at hrun
    rcases Option.map_eq_some'.mp hrun with ⟨r, hr, heq⟩
    injection heq with e1 e2
    subst e1; subst e2
    obtain ⟨ht, _⟩ := inv_copy_assign hwf h1 h1 hr
    intro w hw
    rw [List.mem_singleton] at hw
    subst hw
    exact ht
  | op_move_assign_self =>
    simp only [runOp] at hrun
    rcases Option.map_eq_some'.mp hrun with ⟨r, hr, heq⟩
    injection heq with e1 e2
    subst e1; subst e2
    obtain ⟨ht, _⟩ := inv_move_assign hwf h1 h1 hr
    intro w hw
    rw [List.mem_singleton] at hw
    subst hw
    exact ht
  | op_upcast_copy_construct T =>
    simp only [runOp] at hrun
    rcases Option.map_eq_some'.mp hrun with ⟨r, hr, heq⟩
    injection heq with e1 e2
    subst e1; subst e2
    unfold upcast_copy_construct at hr
    split at hr
    · obtain ⟨hiw, hnew⟩ := inv_construct_from_copy hwf h1 hr
      intro w hw
      rcases List.mem_cons.mp hw with rfl | hw2
      · exact hiw
      · exact hnew w hw2
    · exact absurd hr (by simp)
  | op_upcast_move_construct T =>
    simp only [runOp] at hrun
    rcases Option.map_eq_some'.mp hrun with ⟨r, hr, heq⟩
    injection heq with e1 e2
    subst e1; subst e2
    unfold upcast_move_construct at hr
    split at hr
    · obtain ⟨hiw, hnew⟩ := inv_construct_from_move hwf h1 hr
      intro w hw
      simp only [List.mem_cons, List.mem_singleton, List.not_mem_nil, or_false] at hw
      rcases hw with rfl | rfl
      · exact hiw
      · exact hnew
    · exact absurd hr (by simp)
  | op_upcast_copy_assign =>
    simp only [runOp] at hrun
    rcases Option.map_eq_some'.mp hrun with ⟨r, hr, heq⟩
    injection heq with e1 e2
    subst e1; subst e2
    unfold upcast_copy_assign at hr
    split at hr
    · obtain ⟨ht, hoth⟩ := inv_copy_assign hwf h1 h2 hr
      intro w hw
      simp only [List.mem_cons, List.mem_singleton, List.not_mem_nil, or_false] at hw
      rcases hw with rfl | rfl
      · exact ht
      · exact hoth (Ne.symm hne)
    · exact absurd hr (by simp)
  | op_upcast_move_assign =>
    simp only [runOp] at hrun
    rcases Option.map_eq_some'.mp hrun with ⟨r, hr, heq⟩
    injection heq with e1 e2
    subst e1; subst e2
    unfold upcast_move_assign at hr
    split at hr
    · obtain ⟨ht, hoth⟩ := inv_move_assign hwf h1 h2 hr
      intro w hw
      simp only [List.mem_cons, List.mem_singleton, List.not_mem_nil, or_false] at hw
      rcases hw with rfl | rfl
      · exact ht
      · exact hoth (Ne.symm hne)
    · exact absurd hr (by simp)
  | op_swap =>
    simp only [runOp] at hrun
    rcases Option.map_eq_some'.mp hrun with ⟨r, hr, heq⟩
    injection heq with e1 e2
    subst e1; subst e2
    obtain ⟨hA, hB⟩ := inv_swap h1 h2 hr
    intro w hw
    simp only [List.mem_cons, List.mem_singleton, List.not_mem_nil, or_false] at hw
    rcases hw with rfl | rfl
    · exact hA
    · exact hB
  | op_static_cast_copy T =>
    simp only [runOp] at hrun
    rcases Option.map_eq_some'.mp hrun with ⟨r, hr, heq⟩
    injection heq with e1 e2
    subst e1; subst e2
    unfold static_indirect_cast_copy at hr
    split at hr
    · obtain ⟨hiw, hnew⟩ := inv_construct_from_copy hwf h1 hr
      intro w hw
      rcases List.mem_cons.mp hw with rfl | hw2
      · exact hiw
      · exact hnew w hw2
    · exact absurd hr (by simp)
  | op_static_cast_move T =>
    simp only [runOp] at hrun
    rcases Option.map_eq_some'.mp hrun with ⟨r, hr, heq⟩
    injection heq with e1 e2
    subst e1; subst e2
    unfold static_indirect_cast_move at hr
    split at hr
    · obtain ⟨hiw, hnew⟩ := inv_construct_from_move hwf h1 hr
      intro w hw
      simp only [List.mem_cons, List.mem_singleton, List.not_mem_nil, or_false] at hw
      rcases hw with rfl | rfl
      · exact hiw
      · exact hnew
    · exact absurd hr (by simp)
  | op_dynamic_cast_copy T =>
    simp only [runOp] at hrun
    rcases Option.map_eq_some'.mp hrun with ⟨r, hr, heq⟩
    injection heq with e1 e2
    subst e1; subst e2
    obtain ⟨hA, hB⟩ := inv_dynamic_cast_copy hwf h1 hr
    intro w hw
    rcases List.mem_cons.mp hw with rfl | hw2
    · exact hA
    · exact hB w hw2
  | op_dynamic_cast_move T =>
    simp only [runOp] at hrun
    rcases Option.map_eq_some'.mp hrun with ⟨r, hr, heq⟩
    injection heq with e1 e2
    subst e1; subst e2
    obtain ⟨hA, hB⟩ := inv_dynamic_cast_move hwf h1 hr
    intro w hw
    rcases List.mem_cons.mp hw with rfl | hw2
    · exact hA
    · exact hB w hw2

/-- C10 witness: after a concrete copy assignment between two derived
wrappers, the new target wrapper satisfies the non-null invariant. -/
theorem C10_no_reachable_empty_state_witness :
    inv ⟨3, [(2, ⟨CppType.derived, 2⟩), (1, ⟨CppType.derived, 2⟩)]⟩
      ⟨CppType.derived, some 2, some 2⟩ :=
  C10_no_reachable_empty_state PublicOp.op_copy_assign
    ⟨2, [(0, ⟨CppType.derived, 1⟩), (1, ⟨CppType.derived, 2⟩)]⟩
    ⟨CppType.derived, some 0, some 0⟩ ⟨CppType.derived, some 1, some 1⟩
    (by decide) ⟨0, ⟨CppType.derived, 1⟩, rfl, rfl, rfl⟩
    ⟨1, ⟨CppType.derived, 2⟩, rfl, rfl, rfl⟩ (by decide) rfl
    ⟨CppType.derived, some 2, some 2⟩ (by decide)

end CppIndirect
